import Mathlib

/-!
A shallow embedding of the state-classification and adaptive-rendering core of
the `vcs compare` command (source files `src/vcstool/outputs.py` and
`src/vcstool/commands/compare.py`), together with theorems checking the
natural-language specification of that core against the embedded code.

Python strings are modelled as `List Char`, Python `int` as `Int`, Python
`bool` as `Bool`, optional values as `Option`, and `dict`s as association
lists (with `Nodup` hypotheses on the key lists where a theorem needs the
dict property of unique keys).  Code that can raise an exception is modelled
with `Option` (`none` = the exception escapes).
-/

/-- Python strings are modelled as lists of characters. -/
abbrev Str := List Char

/-- `vcstool/outputs.py`: dataclass `CompareOutput`, the per-repository raw
comparison fact produced by the VCS layer. -/
structure CompareOutput where
  local_version : Str
  remote_version : Str
  tag : Str
  local_hash : Str
  remote_hash : Str
  remote : Str
  ahead : Int
  behind : Int
  unstaged_changes : Bool
  staged_changes : Bool
  untracked_files : Bool
  stashes : Bool
deriving DecidableEq, Repr

/-- ASCII whitespace, as matched by `\s` in Python regular expressions
(the embedding restricts `\S` to ASCII characters). -/
def pyIsSpace (c : Char) : Bool :=
  c = ' ' || c = '\t' || c = '\n' || c = '\r' || c = '\x0b' || c = '\x0c'

/-- The literal part of the pattern `\(HEAD detached at (\S+)\)` used by
`CompareOutput.fix_detached_head`. -/
def detachedPat : Str := ("(HEAD detached at ").data

/-- Index of the last occurrence of `c` in the list, if any. -/
def lastIdxOf (c : Char) : Str → Option Nat
  | [] => none
  | a :: as =>
    match lastIdxOf c as with
    | some n => some (n + 1)
    | none => if a = c then some 0 else none

/-- `re.match(r"\(HEAD detached at (\S+)\)", s)`: the pattern must match a
prefix of `s`; `\S+` is greedy, so after the literal prefix the capture
extends to just before the last `)` inside the maximal run of non-whitespace
characters, and must be non-empty.  Returns the captured group. -/
def matchDetached (s : Str) : Option Str :=
  if s.take detachedPat.length = detachedPat then
    let rest := s.drop detachedPat.length
    let run := rest.takeWhile (fun c => !pyIsSpace c)
    match lastIdxOf ')' run with
    | some j => if 1 ≤ j then some (run.take j) else none
    | none => none
  else none

/-- `CompareOutput.fix_detached_head` (`vcstool/outputs.py`): if
`local_version` matches the detached-head pattern, rewrite `local_version` to
the literal `"HEAD detached"` and set `local_hash` to the captured group. -/
def fix_detached_head (o : CompareOutput) : CompareOutput :=
  match matchDetached o.local_version with
  | none => o
  | some x => { o with local_version := ("HEAD detached").data, local_hash := x }

/-- Configuration constant `HASH_MAX_LENGTH` from `compare.py`. -/
def HASH_MAX_LENGTH : Nat := 7

/-- Configuration constant `VERSION_MAX_LENGTH` from `compare.py`. -/
def VERSION_MAX_LENGTH : Nat := 35

/-- Modelled from the spec: the `ansi` escape-code lookup lives in the
external executor module (not under `src/`); the spec treats colors as an
opaque immutable theme, so each color is modelled as the escape character
followed by the color's name. -/
def ansi (name : String) : Str := '\x1b' :: name.data

namespace Colors

def RESET : Str := ansi ("reset")

def ROW_BACKGROUND_ODD : Str := ansi ("reset")

def ROW_BACKGROUND_EVEN : Str := ansi ("grey4b")

def LEGEND : Str := ansi ("brightblackf")

def TAG : Str := ansi ("brightmagentaf")

def TIP : Str := ansi ("brightmagentaf")

def MISSING_REPO : Str := ansi ("redf")

def REPO_STATUS_NOMINAL : Str := ansi ("brightblackf")

def REPO_STATUS_UNTRACKED : Str := ansi ("brightyellowf")

def REPO_STATUS_DIRTY : Str := ansi ("brightyellowf")

def REPO_STATUS_CLEAN : Str := []

def SIGNIFICANT : Str := ansi ("brightcyanf")

def INVALID_BRANCH_NAME : Str := ansi ("redf")

def VCS_TRACKING_DIFFERENT : Str := ansi ("brightyellowf")

def VCS_TRACKING_CURRENT : Str := ansi ("brightblackf")

def VCS_TRACKING_BEHIND : Str := ansi ("brightyellowf")

def VCS_TRACKING_AHEAD : Str := ansi ("brightyellowf")

def VCS_TRACKING_DIVERGED : Str := ansi ("brightyellowf")

def VCS_TRACKING_EQUAL : Str := ansi ("brightblackf")

def VCS_TRACKING_LOCAL : Str := ansi ("brightblackf")

def MANIFEST_VERSION_NOMINAL : Str := ansi ("brightblackf")

def ERROR : Str := ansi ("redf")

end Colors

namespace Legend

def REPO : Str := ("r").data

def MISSING : Str := ("M").data

def SUPER_PROJECT : Str := ("s").data

def REPO_NOT_TRACKED : Str := ("U").data

def BEHIND : Str := (">").data

def AHEAD : Str := ("<").data

def DIVERGED : Str := ("<>").data

def EQUAL : Str := ("==").data

def LOCAL : Str := []

def UNSTAGED : Str := ("*").data

def STAGED : Str := ("+").data

def UNTRACKED : Str := ("%").data

def STASHES : Str := ("$").data

end Legend

/-- `Legend.Flags` (`IntFlag`): the four legend-section flags, modelled as a
record of booleans; `|=` becomes componentwise `or`. -/
structure LegendFlags where
  missing_repo : Bool
  vcs_tracking_status : Bool
  repo_status : Bool
  is_narrowed : Bool
deriving DecidableEq, Repr

def LegendFlags.zero : LegendFlags := ⟨false, false, false, false⟩

def LegendFlags.union (a b : LegendFlags) : LegendFlags :=
  ⟨a.missing_repo || b.missing_repo,
   a.vcs_tracking_status || b.vcs_tracking_status,
   a.repo_status || b.repo_status,
   a.is_narrowed || b.is_narrowed⟩

/-- Enum `RepoStatus` from `compare.py`. -/
inductive RepoStatus where
  | NOMINAL
  | UNTRACKED
deriving DecidableEq, Repr

/-- Enum `VcsTrackingStatus` from `compare.py`. -/
inductive VcsTrackingStatus where
  | EQUAL
  | LOCAL
  | BEHIND
  | AHEAD
  | DIVERGED
  | ERROR
deriving DecidableEq, Repr

/-- A value of the manifest mapping `Dict[str, Dict[str, str]]`; the compare
module only ever reads the `"version"` key of the inner dict, so the inner
dict is modelled by its optional `version` field. -/
structure ManifestDict where
  version : Option Str
deriving DecidableEq, Repr

/-- `get_manifest_version` from `compare.py`: returns `None` both when the
path has no manifest entry and when the entry has no `"version"` key. -/
def get_manifest_version (manifest_per_path : List (Str × ManifestDict)) (path : Str) :
    Option Str :=
  match manifest_per_path.lookup path with
  | none => none
  | some d => d.version

/-- `is_probably_a_hash` from `compare.py`: true iff the string has exactly
40 characters. -/
def is_probably_a_hash (the_hash : Str) : Bool :=
  the_hash.length == 40

/-- `CompareOutputEntry._get_abbreviated_version`: identity while
`should_abbreviate_version` is off or the string is short enough; otherwise
truncate so that the result, ellipsis included, has length `max_len`. -/
def get_abbreviated_version (should_abbreviate_version : Bool) (version : Str)
    (max_len : Nat) : Str :=
  if should_abbreviate_version = false then version
  else if version.length ≤ max_len then version
  else version.take (max_len - ("...").data.length) ++ ("...").data

/-- `CompareOutputEntry._get_abbreviated_hash`: strings that are probably a
hash are truncated to `max_len` characters, everything else passes through. -/
def get_abbreviated_hash (the_hash : Str) (max_len : Nat) : Str :=
  if is_probably_a_hash the_hash = false then the_hash
  else if the_hash.length ≤ max_len then the_hash
  else the_hash.take max_len

/-- `CompareOutputEntry._is_valid_branch_name`. -/
def is_valid_branch_name (branch_name : Str) : Bool :=
  let acceptable_full : List Str :=
    [("master").data, ("develop").data, ("azevtec").data, ("outrider").data]
  let prefixes : List Str :=
    [("bugfix/").data, ("demo/").data, ("feature/").data, ("hotfix/").data,
     ("int/").data, ("pilot/").data, ("release/").data]
  branch_name ∈ acceptable_full
    || prefixes.any (fun p => branch_name.take p.length = p)

/-- `CompareOutputEntry`: entry for a repo discovered by the CompareCommand,
possibly missing from the manifest.  The constructor runs
`fix_detached_head` on the raw output before anything reads it, so
`compare_output` stores the fixed output (see `CompareOutputEntry.make`). -/
structure CompareOutputEntry where
  path : Str
  compare_output : CompareOutput
  manifest_version : Option Str
deriving DecidableEq, Repr

/-- The `CompareOutputEntry` constructor: fixes up a detached head in place
before the derived fields are computed. -/
def CompareOutputEntry.make (path : Str) (compare_output : CompareOutput)
    (manifest_version : Option Str) : CompareOutputEntry :=
  ⟨path, fix_detached_head compare_output, manifest_version⟩

namespace CompareOutputEntry

/-- `self._manifest_version in [local_version, local_hash]` (Python `in` on a
two-element list; a `None` manifest version is in neither). -/
def is_local_current_with_manifest (e : CompareOutputEntry) : Bool :=
  decide (e.manifest_version ∈
    [some e.compare_output.local_version, some e.compare_output.local_hash])

/-- `self._manifest_version in [remote_version, remote_hash]`. -/
def is_remote_current_with_manifest (e : CompareOutputEntry) : Bool :=
  decide (e.manifest_version ∈
    [some e.compare_output.remote_version, some e.compare_output.remote_hash])

/-- `CompareOutputEntry._get_repo_status`. -/
def get_repo_status (e : CompareOutputEntry) : RepoStatus :=
  if e.manifest_version = none then RepoStatus.UNTRACKED
  else RepoStatus.NOMINAL

/-- `CompareOutputEntry._get_tracking_status`: the decision table over
(remote_version empty?, ahead, behind), first match wins. -/
def get_tracking_status (e : CompareOutputEntry) : VcsTrackingStatus :=
  if e.compare_output.remote_version = [] then VcsTrackingStatus.LOCAL
  else if e.compare_output.ahead = 0 ∧ e.compare_output.behind = 0 then
    VcsTrackingStatus.EQUAL
  else if e.compare_output.ahead = 0 ∧ 0 < e.compare_output.behind then
    VcsTrackingStatus.BEHIND
  else if 0 < e.compare_output.ahead ∧ e.compare_output.behind = 0 then
    VcsTrackingStatus.AHEAD
  else if 0 < e.compare_output.ahead ∧ 0 < e.compare_output.behind then
    VcsTrackingStatus.DIVERGED
  else VcsTrackingStatus.ERROR

/-- `CompareOutputEntry._is_dirty`: stashes do not count towards dirtiness. -/
def is_dirty (e : CompareOutputEntry) : Bool :=
  e.compare_output.unstaged_changes
    || e.compare_output.staged_changes
    || e.compare_output.untracked_files

/-- `CompareOutputEntry._get_vcs_tracking_flags`. -/
def get_vcs_tracking_flags (e : CompareOutputEntry) : Str :=
  (if e.compare_output.unstaged_changes then Legend.UNSTAGED else (" ").data)
    ++ (if e.compare_output.staged_changes then Legend.STAGED else (" ").data)
    ++ (if e.compare_output.untracked_files then Legend.UNTRACKED else (" ").data)
    ++ (if e.compare_output.stashes then Legend.STASHES else (" ").data)

/-- `CompareOutputEntry.is_significant`. -/
def is_significant (e : CompareOutputEntry) : Bool :=
  e.is_dirty
    || decide (e.get_tracking_status ≠ VcsTrackingStatus.EQUAL)
    || decide (e.get_repo_status ≠ RepoStatus.NOMINAL)
    || decide (e.manifest_version ≠ some e.compare_output.local_version)

/-- Python `str.strip()` on ASCII whitespace. -/
def pyStrip (s : Str) : Str :=
  ((s.dropWhile pyIsSpace).reverse.dropWhile pyIsSpace).reverse

/-- `CompareOutputEntry.get_legend_flags`. -/
def get_legend_flags (e : CompareOutputEntry) : LegendFlags :=
  { missing_repo := false,
    vcs_tracking_status :=
      decide (e.get_tracking_status ≠ VcsTrackingStatus.EQUAL)
        || decide (pyStrip e.get_vcs_tracking_flags ≠ []),
    repo_status := decide (e.get_repo_status ≠ RepoStatus.NOMINAL),
    is_narrowed := false }

/-- `CompareOutputEntry.get_color_repo_status`. -/
def get_color_repo_status (e : CompareOutputEntry) : Str :=
  match e.get_repo_status with
  | RepoStatus.NOMINAL => Colors.REPO_STATUS_NOMINAL ++ Legend.REPO
  | RepoStatus.UNTRACKED => Colors.REPO_STATUS_UNTRACKED ++ Legend.REPO_NOT_TRACKED

/-- `CompareOutputEntry.get_color_path`. -/
def get_color_path (e : CompareOutputEntry) : Str :=
  (if e.is_significant then Colors.SIGNIFICANT else []) ++ e.path

/-- `CompareOutputEntry._get_local_foreground_color`. -/
def get_local_foreground_color (e : CompareOutputEntry) : Str :=
  if !is_valid_branch_name e.compare_output.local_version then
    Colors.INVALID_BRANCH_NAME
  else if e.get_tracking_status ∉ [VcsTrackingStatus.EQUAL, VcsTrackingStatus.LOCAL] then
    Colors.VCS_TRACKING_DIFFERENT
  else if e.is_local_current_with_manifest then Colors.VCS_TRACKING_CURRENT
  else []

/-- `CompareOutputEntry.get_color_local_version`; the entry's
`should_abbreviate_version` attribute is passed as the argument
`should_abbreviate_version` (it is mutated between render phases). -/
def get_color_local_version (e : CompareOutputEntry)
    (should_abbreviate_version : Bool) : Str :=
  let foreground := e.get_local_foreground_color
  let local_version := get_abbreviated_version should_abbreviate_version
    e.compare_output.local_version VERSION_MAX_LENGTH
  let local_hash := get_abbreviated_hash e.compare_output.local_hash HASH_MAX_LENGTH
  foreground ++ local_hash ++ (" (").data ++ local_version ++ (")").data

/-- `CompareOutputEntry._get_remote_foreground_color`. -/
def get_remote_foreground_color (e : CompareOutputEntry) : Str :=
  if e.get_tracking_status ∉ [VcsTrackingStatus.EQUAL, VcsTrackingStatus.LOCAL] then
    Colors.VCS_TRACKING_DIFFERENT
  else if e.is_remote_current_with_manifest then Colors.VCS_TRACKING_CURRENT
  else []

/-- `CompareOutputEntry.get_color_remote_version`. -/
def get_color_remote_version (e : CompareOutputEntry)
    (should_abbreviate_version : Bool) : Str :=
  let remote := e.compare_output.remote
  let remote_version := get_abbreviated_version should_abbreviate_version
    e.compare_output.remote_version VERSION_MAX_LENGTH
  if remote = [] ∨ remote_version = [] then []
  else
    let foreground := e.get_remote_foreground_color
    let remote_hash := get_abbreviated_hash e.compare_output.remote_hash HASH_MAX_LENGTH
    foreground ++ remote_hash ++ (" (").data ++ remote ++ ("/").data
      ++ remote_version ++ (")").data

/-- `CompareOutputEntry.get_color_manifest_version`. -/
def get_color_manifest_version (e : CompareOutputEntry) : Str :=
  match e.manifest_version with
  | none => []
  | some mv =>
    let manifest_version :=
      if is_probably_a_hash mv then get_abbreviated_hash mv HASH_MAX_LENGTH else mv
    let foreground :=
      if e.is_local_current_with_manifest then Colors.MANIFEST_VERSION_NOMINAL else []
    foreground ++ manifest_version

/-- `CompareOutputEntry.get_color_track`. -/
def get_color_track (e : CompareOutputEntry) : Str :=
  match e.get_tracking_status with
  | VcsTrackingStatus.EQUAL => Colors.VCS_TRACKING_EQUAL ++ Legend.EQUAL
  | VcsTrackingStatus.LOCAL => Colors.VCS_TRACKING_LOCAL ++ Legend.LOCAL
  | VcsTrackingStatus.AHEAD =>
    Colors.VCS_TRACKING_BEHIND ++ Legend.AHEAD ++ (toString e.compare_output.ahead).data
  | VcsTrackingStatus.BEHIND =>
    Colors.VCS_TRACKING_BEHIND ++ ("   ").data
      ++ (toString e.compare_output.behind).data ++ Legend.BEHIND
  | VcsTrackingStatus.DIVERGED =>
    Colors.VCS_TRACKING_DIVERGED ++ Legend.AHEAD ++ (toString e.compare_output.ahead).data
      ++ (",").data ++ (toString e.compare_output.behind).data ++ Legend.BEHIND
  | VcsTrackingStatus.ERROR => Colors.ERROR ++ ("ERR").data

/-- `CompareOutputEntry.get_color_vcs_tracking_flags`. -/
def get_color_vcs_tracking_flags (e : CompareOutputEntry) : Str :=
  (if e.is_dirty then Colors.REPO_STATUS_DIRTY else Colors.REPO_STATUS_CLEAN)
    ++ e.get_vcs_tracking_flags

end CompareOutputEntry

/-- The two row variants behind the `ICompareTableEntry` interface:
`CompareOutputEntry` (tracked) and `MissingManifestEntry` (declared in the
manifest but absent from the discovered facts). -/
inductive TableEntry where
  | tracked (e : CompareOutputEntry)
  | missing (path : Str) (manifest_version : Str)
deriving DecidableEq, Repr

namespace ICompareTableEntry

def STATUS_HEADER : Str := ("S").data

def PATH_HEADER : Str := ("Path").data

def FLAGS_HEADER : Str := ("Flags").data

def MANIFEST_VERSION_HEADER : Str := ("Manifest").data

def LOCAL_VERSION_HEADER : Str := ("Local Version").data

def TRACKING_STATUS_HEADER : Str := ("Ah/Bh").data

def REMOTE_VERSION_HEADER : Str := ("Remote Version").data

def HEADERS : List Str :=
  [STATUS_HEADER, PATH_HEADER, FLAGS_HEADER, MANIFEST_VERSION_HEADER,
   LOCAL_VERSION_HEADER, TRACKING_STATUS_HEADER, REMOTE_VERSION_HEADER]

/-- Order in which columns are hidden when the terminal is too small. -/
def HEADER_HIDE_ORDER : List Str :=
  [REMOTE_VERSION_HEADER, MANIFEST_VERSION_HEADER, TRACKING_STATUS_HEADER,
   LOCAL_VERSION_HEADER, FLAGS_HEADER, STATUS_HEADER]

def MAX_HIDE_COLUMNS : Nat := HEADER_HIDE_ORDER.length

/-- `ICompareTableEntry.get_headers`: hide the first `cols_to_hide` headers
of `HEADER_HIDE_ORDER` (each present exactly once, found by `list.index` and
deleted), then append the dummy end column.  The source asserts
`cols_to_hide <= MAX_HIDE_COLUMNS`; every caller satisfies it, and the
embedding's `take` is the identity beyond that bound. -/
def get_headers (cols_to_hide : Nat) : List Str :=
  ((HEADER_HIDE_ORDER.take cols_to_hide).foldl (fun hs h => hs.erase h) HEADERS)
    ++ [[]]

/-- The simultaneous `del headers[i]; del row[i]` walk of
`ICompareTableEntry._hide_n_columns`, one hidden header at a time. -/
def hide_walk : List Str → List Str → List Str → List Str × List Str
  | hs, row, [] => (hs, row)
  | hs, row, h :: rest =>
    hide_walk (hs.eraseIdx (hs.indexOf h)) (row.eraseIdx (hs.indexOf h)) rest

/-- `ICompareTableEntry._hide_n_columns` (`cols_to_hide` is clamped to
`MAX_HIDE_COLUMNS`, then the dummy end cell is appended). -/
def hide_n_columns (row : List Str) (cols_to_hide : Nat) : List Str :=
  (hide_walk HEADERS row (HEADER_HIDE_ORDER.take (min MAX_HIDE_COLUMNS cols_to_hide))).2
    ++ [Colors.RESET]

/-- `ICompareTableEntry._wrap_row_with_background_color`. -/
def wrap_row_with_background_color (row : List Str) (is_odd_row : Bool) : List Str :=
  let background :=
    if is_odd_row then Colors.ROW_BACKGROUND_ODD else Colors.ROW_BACKGROUND_EVEN
  row.map (fun item => background ++ item ++ Colors.RESET ++ background)

end ICompareTableEntry

namespace TableEntry

/-- Dispatch of `is_significant` over the two entry variants; a
`MissingManifestEntry` is always significant. -/
def is_significant : TableEntry → Bool
  | tracked e => e.is_significant
  | missing _ _ => true

/-- Dispatch of `get_legend_flags`; a `MissingManifestEntry` contributes
`REPO_STATUS | MISSING_REPO`. -/
def get_legend_flags : TableEntry → LegendFlags
  | tracked e => e.get_legend_flags
  | missing _ _ =>
    { missing_repo := true, vcs_tracking_status := false,
      repo_status := true, is_narrowed := false }

/-- True on the `MissingManifestEntry` variant. -/
def isMissing : TableEntry → Bool
  | tracked _ => false
  | missing _ _ => true

/-- The seven cells of `get_color_row` before background wrapping and column
hiding, in the order of `HEADERS`.  For a `MissingManifestEntry` the local
version, track and remote version cells are empty strings. -/
def get_row : TableEntry → Bool → List Str
  | tracked e, should_abbreviate_version =>
    [e.get_color_repo_status, e.get_color_path, e.get_color_vcs_tracking_flags,
     e.get_color_manifest_version, e.get_color_local_version should_abbreviate_version,
     e.get_color_track, e.get_color_remote_version should_abbreviate_version]
  | missing path manifest_version, _ =>
    [Colors.MISSING_REPO ++ Legend.MISSING, Colors.MISSING_REPO ++ path, [],
     manifest_version, [], [], []]

/-- `ICompareTableEntry.get_color_row`. -/
def get_color_row (t : TableEntry) (is_odd_row : Bool) (cols_to_hide : Nat)
    (should_abbreviate_version : Bool) : List Str :=
  ICompareTableEntry.hide_n_columns
    (ICompareTableEntry.wrap_row_with_background_color
      (t.get_row should_abbreviate_version) is_odd_row)
    cols_to_hide

end TableEntry

/-- The second loop of `generate_table_entries`: for each manifest path with
no discovered fact, add `MissingManifestEntry(path, manifest["version"])`.
The subscript access raises `KeyError` when the entry has no `"version"`
key, modelled as `none`. -/
def addMissing (compare_output_paths : List Str) :
    List (Str × ManifestDict) → List (Str × TableEntry) →
      Option (List (Str × TableEntry))
  | [], entries => some entries
  | (path, manifest) :: rest, entries =>
    if path ∈ compare_output_paths then addMissing compare_output_paths rest entries
    else
      match manifest.version with
      | none => none
      | some v =>
        addMissing compare_output_paths rest
          (entries ++ [(path, TableEntry.missing path v)])

/-- The first loop of `generate_table_entries`: build a `CompareOutputEntry`
for every discovered path, dropping the non-significant ones when
`significant_only` is set.  The dict insertions are modelled as an
association list in insertion order (all keys are distinct for dict
inputs). -/
def trackedEntries (compare_output_per_path : List (Str × CompareOutput))
    (manifest_per_path : List (Str × ManifestDict)) (significant_only : Bool) :
    List (Str × TableEntry) :=
  (compare_output_per_path.filter (fun pc =>
      !(significant_only
        && !(CompareOutputEntry.make pc.1 pc.2
              (get_manifest_version manifest_per_path pc.1)).is_significant))).map
    (fun pc =>
      (pc.1, TableEntry.tracked (CompareOutputEntry.make pc.1 pc.2
        (get_manifest_version manifest_per_path pc.1))))

/-- `generate_table_entries` from `compare.py`. -/
def generate_table_entries (compare_output_per_path : List (Str × CompareOutput))
    (manifest_per_path : List (Str × ManifestDict)) (significant_only : Bool) :
    Option (List (Str × TableEntry)) :=
  addMissing (compare_output_per_path.map Prod.fst) manifest_per_path
    (trackedEntries compare_output_per_path manifest_per_path significant_only)

/-- `sorted(self._entries.keys())` in `CompareTable._reset_and_add_entries`:
the entry paths in ascending lexicographic order. -/
def sortKeys (entries : List (Str × TableEntry)) : List Str :=
  List.insertionSort (fun a b => a ≤ b) (entries.map Prod.fst)

/-- The part of a `CompareTable` render that this module computes and hands
to the external `prettytable` layer: the headers, the colored rows in path
order, and the accumulated legend flags. -/
structure Rendered where
  headers : List Str
  rows : List (List Str)
  flags : LegendFlags
deriving DecidableEq, Repr

/-- `CompareTable._reset_and_add_entries` with the given abbreviation state
and hidden-column count: clear, re-add headers, reset the legend flags to
`IS_NARROWED` iff any column is hidden, then add one row per entry in sorted
path order (`is_odd_row` is the parity of the running row count, and each
entry's legend flags are or-ed in). -/
def renderPhase (entries : List (Str × TableEntry)) (should_abbreviate_version : Bool)
    (cols_to_hide : Nat) : Rendered :=
  let ps := sortKeys entries
  { headers := ICompareTableEntry.get_headers cols_to_hide,
    rows := ps.enum.filterMap (fun ip =>
      (entries.lookup ip.2).map (fun t =>
        t.get_color_row (ip.1 % 2 == 1) cols_to_hide should_abbreviate_version)),
    flags := (ps.filterMap (fun p => entries.lookup p)).foldl
      (fun acc t => acc.union t.get_legend_flags)
      (if 0 < cols_to_hide then
        { LegendFlags.zero with is_narrowed := true }
      else LegendFlags.zero) }

/-- The column-hiding `while` loop of `CompareTable.__init__`, with the
rendered width supplied by the external `prettytable` layer as the oracle
`width` (the width of the phase at a given hidden-column count): while the
table is too wide and more columns can be hidden, hide one more column.  The
fuel starts at `MAX_HIDE_COLUMNS`, which the loop can never outrun. -/
def fitColsAux (width : Nat → Nat) (display_width : Nat) : Nat → Nat → Nat
  | 0, cols => cols
  | fuel + 1, cols =>
    if width cols ≤ display_width ∨ ICompareTableEntry.MAX_HIDE_COLUMNS ≤ cols then
      cols
    else fitColsAux width display_width fuel (cols + 1)

/-- The hidden-column count at which the `while` loop of
`CompareTable.__init__` stops, starting from zero hidden columns. -/
def fit_cols_to_hide (width : Nat → Nat) (display_width : Nat) : Nat :=
  fitColsAux width display_width ICompareTableEntry.MAX_HIDE_COLUMNS 0

/-- The three-phase width-fitting algorithm of `CompareTable.__init__`.
`measure` is the external `prettytable` width computation
(`_table_width`) applied to a rendered phase; `_is_narrow_enough` is
`should_hide_cols = false ∨ measure ≤ display_width`.  Phase 1 renders in
full, phase 2 turns version abbreviation on for every entry, phase 3 hides
columns one at a time. -/
def renderTable (measure : Rendered → Nat) (display_width : Nat)
    (should_hide_cols : Bool) (entries : List (Str × TableEntry)) : Rendered :=
  let r0 := renderPhase entries false 0
  if should_hide_cols = false ∨ measure r0 ≤ display_width then r0
  else
    let r1 := renderPhase entries true 0
    if measure r1 ≤ display_width then r1
    else
      renderPhase entries true
        (fit_cols_to_hide (fun cols => measure (renderPhase entries true cols))
          display_width)

/-! ## Helper lemmas and sample data -/

lemma fix_detached_head_other_fields (o : CompareOutput) :
    (fix_detached_head o).remote_version = o.remote_version
  ∧ (fix_detached_head o).ahead = o.ahead
  ∧ (fix_detached_head o).behind = o.behind
  ∧ (fix_detached_head o).unstaged_changes = o.unstaged_changes
  ∧ (fix_detached_head o).staged_changes = o.staged_changes
  ∧ (fix_detached_head o).untracked_files = o.untracked_files
  ∧ (fix_detached_head o).stashes = o.stashes := by
  unfold fix_detached_head
  cases matchDetached o.local_version <;> simp

lemma fix_detached_head_stashes_comm (o : CompareOutput) (b : Bool) :
    fix_detached_head { o with stashes := b }
      = { fix_detached_head o with stashes := b } := by
  unfold fix_detached_head
  cases h : matchDetached o.local_version <;> simp [h]

lemma matchDetached_fixed_none : matchDetached (("HEAD detached").data) = none := by
  decide

/-- A nominal sample fact used by witnesses: on branch `master`, in sync with
its remote, clean. -/
def sampleOutput : CompareOutput :=
  { local_version := ("master").data, remote_version := ("master").data,
    tag := [], local_hash := ("1234567").data, remote_hash := ("89abcde").data,
    remote := ("origin").data, ahead := 0, behind := 0,
    unstaged_changes := false, staged_changes := false,
    untracked_files := false, stashes := false }

def sampleEntry : CompareOutputEntry :=
  CompareOutputEntry.make (("repoA").data) sampleOutput (some (("master").data))

/-! ## C1 -/

/-- C1: for every entry whose fact has non-negative `ahead` and `behind`, the
derived `VcsTrackingStatus` follows the first-match decision table — empty
`remote_version` gives LOCAL, `(0,0)` EQUAL, `(0,>0)` BEHIND, `(>0,0)` AHEAD,
`(>0,>0)` DIVERGED — and the defensive ERROR branch is never the result. -/
theorem tracking_status_decision_table (e : CompareOutputEntry)
    (ha : 0 ≤ e.compare_output.ahead) (hb : 0 ≤ e.compare_output.behind) :
    (e.compare_output.remote_version = [] →
      e.get_tracking_status = VcsTrackingStatus.LOCAL)
  ∧ (e.compare_output.remote_version ≠ [] → e.compare_output.ahead = 0 →
      e.compare_output.behind = 0 →
      e.get_tracking_status = VcsTrackingStatus.EQUAL)
  ∧ (e.compare_output.remote_version ≠ [] → e.compare_output.ahead = 0 →
      0 < e.compare_output.behind →
      e.get_tracking_status = VcsTrackingStatus.BEHIND)
  ∧ (e.compare_output.remote_version ≠ [] → 0 < e.compare_output.ahead →
      e.compare_output.behind = 0 →
      e.get_tracking_status = VcsTrackingStatus.AHEAD)
  ∧ (e.compare_output.remote_version ≠ [] → 0 < e.compare_output.ahead →
      0 < e.compare_output.behind →
      e.get_tracking_status = VcsTrackingStatus.DIVERGED)
  ∧ e.get_tracking_status ≠ VcsTrackingStatus.ERROR := by
  unfold CompareOutputEntry.get_tracking_status
  refine ⟨fun h => by rw [if_pos h],
    fun h h1 h2 => by rw [if_neg h, if_pos ⟨h1, h2⟩],
    fun h h1 h2 => by
      rw [if_neg h, if_neg (by rintro ⟨x, y⟩; omega), if_pos ⟨h1, h2⟩],
    fun h h1 h2 => by
      rw [if_neg h, if_neg (by rintro ⟨x, y⟩; omega),
        if_neg (by rintro ⟨x, y⟩; omega), if_pos ⟨h1, h2⟩],
    fun h h1 h2 => by
      rw [if_neg h, if_neg (by rintro ⟨x, y⟩; omega),
        if_neg (by rintro ⟨x, y⟩; omega), if_neg (by rintro ⟨x, y⟩; omega),
        if_pos ⟨h1, h2⟩],
    ?_⟩
  split_ifs with g1 g2 g3 g4 g5
  · simp
  · simp
  · simp
  · simp
  · simp
  · exfalso; omega

theorem tracking_status_decision_table_witness :
    sampleEntry.compare_output.remote_version ≠ [] ∧
    sampleEntry.get_tracking_status = VcsTrackingStatus.EQUAL :=
  ⟨by decide,
    (tracking_status_decision_table sampleEntry (by decide) (by decide)).2.1
      (by decide) (by decide) (by decide)⟩

/-! ## C2 -/

/-- C2: a tracked entry is significant iff it is dirty (unstaged, staged or
untracked changes; stashes never count), or its tracking status is not EQUAL,
or its repo status is not NOMINAL, or the manifest version differs from the
local version; a missing-manifest entry is always significant; and each
disjunct alone forces significance (monotone OR). -/
theorem significance_characterization (path : Str) (o : CompareOutput)
    (mv : Option Str) :
    ((CompareOutputEntry.make path o mv).is_significant = true ↔
      ((CompareOutputEntry.make path o mv).is_dirty = true
        ∨ (CompareOutputEntry.make path o mv).get_tracking_status ≠ VcsTrackingStatus.EQUAL
        ∨ (CompareOutputEntry.make path o mv).get_repo_status ≠ RepoStatus.NOMINAL
        ∨ mv ≠ some (CompareOutputEntry.make path o mv).compare_output.local_version))
  ∧ ((CompareOutputEntry.make path o mv).is_dirty = true ↔
      (o.unstaged_changes = true ∨ o.staged_changes = true ∨ o.untracked_files = true))
  ∧ (∀ b, (CompareOutputEntry.make path { o with stashes := b } mv).is_significant
        = (CompareOutputEntry.make path o mv).is_significant)
  ∧ (∀ p v, (TableEntry.missing p v).is_significant = true)
  ∧ ((CompareOutputEntry.make path o mv).is_dirty = true →
      (CompareOutputEntry.make path o mv).is_significant = true)
  ∧ ((CompareOutputEntry.make path o mv).get_tracking_status ≠ VcsTrackingStatus.EQUAL →
      (CompareOutputEntry.make path o mv).is_significant = true)
  ∧ ((CompareOutputEntry.make path o mv).get_repo_status ≠ RepoStatus.NOMINAL →
      (CompareOutputEntry.make path o mv).is_significant = true)
  ∧ (mv ≠ some (CompareOutputEntry.make path o mv).compare_output.local_version →
      (CompareOutputEntry.make path o mv).is_significant = true) := by
  have hsig : ∀ (e : CompareOutputEntry), e.is_significant = true ↔
      (e.is_dirty = true ∨ e.get_tracking_status ≠ VcsTrackingStatus.EQUAL
        ∨ e.get_repo_status ≠ RepoStatus.NOMINAL
        ∨ e.manifest_version ≠ some e.compare_output.local_version) := by
    intro e
    simp [CompareOutputEntry.is_significant, Bool.or_eq_true, decide_eq_true_eq,
      or_assoc]
  have hmv : (CompareOutputEntry.make path o mv).manifest_version = mv := rfl
  refine ⟨by rw [hsig, hmv], ?_, ?_, fun p v => rfl, ?_, ?_, ?_, ?_⟩
  · simp [CompareOutputEntry.is_dirty, CompareOutputEntry.make,
      (fix_detached_head_other_fields o).2.2.2.1,
      (fix_detached_head_other_fields o).2.2.2.2.1,
      (fix_detached_head_other_fields o).2.2.2.2.2.1, Bool.or_eq_true, or_assoc]
  · intro b
    simp only [CompareOutputEntry.make, fix_detached_head_stashes_comm,
      CompareOutputEntry.is_significant, CompareOutputEntry.is_dirty,
      CompareOutputEntry.get_tracking_status, CompareOutputEntry.get_repo_status]
  · intro hd; rw [hsig]; exact Or.inl hd
  · intro ht; rw [hsig]; exact Or.inr (Or.inl ht)
  · intro hr; rw [hsig]; exact Or.inr (Or.inr (Or.inl hr))
  · intro hm; rw [hsig, hmv]; exact Or.inr (Or.inr (Or.inr hm))

theorem significance_characterization_witness :
    (CompareOutputEntry.make (("repoA").data)
      { sampleOutput with unstaged_changes := true }
      (some (("master").data))).is_dirty = true
  ∧ (CompareOutputEntry.make (("repoA").data)
      { sampleOutput with unstaged_changes := true }
      (some (("master").data))).is_significant = true :=
  ⟨by decide,
    (significance_characterization (("repoA").data)
      { sampleOutput with unstaged_changes := true }
      (some (("master").data))).2.2.2.2.1 (by decide)⟩

/-! ## C3 -/

/-- C3: a fact whose `local_version` matches the detached-head pattern has
`local_version` rewritten to the literal `"HEAD detached"` and `local_hash`
set to the captured group, all other fields unchanged; a non-matching fact is
unchanged; and the normalization is idempotent. -/
theorem fix_detached_head_spec (o : CompareOutput) :
    (∀ x, matchDetached o.local_version = some x →
      fix_detached_head o =
        { o with local_version := ("HEAD detached").data, local_hash := x })
  ∧ (matchDetached o.local_version = none → fix_detached_head o = o)
  ∧ fix_detached_head (fix_detached_head o) = fix_detached_head o := by
  have hfix : ∀ o2 : CompareOutput, matchDetached o2.local_version = none →
      fix_detached_head o2 = o2 := by
    intro o2 h2
    unfold fix_detached_head
    rw [h2]
  have hsome : ∀ x, matchDetached o.local_version = some x →
      fix_detached_head o =
        { o with local_version := ("HEAD detached").data, local_hash := x } := by
    intro x hx
    unfold fix_detached_head
    rw [hx]
  refine ⟨hsome, hfix o, ?_⟩
  cases h : matchDetached o.local_version with
  | none =>
    rw [hfix o h, hfix o h]
  | some x =>
    rw [hsome x h]
    exact hfix _ matchDetached_fixed_none

/-- A sample fact in detached-head state. -/
def detachedOutput : CompareOutput :=
  { sampleOutput with local_version := ("(HEAD detached at a1b2c3d)").data }

theorem fix_detached_head_spec_witness :
    matchDetached detachedOutput.local_version = some (("a1b2c3d").data)
  ∧ fix_detached_head detachedOutput =
      { detachedOutput with local_version := ("HEAD detached").data, local_hash := ("a1b2c3d").data } :=
  ⟨by decide, (fix_detached_head_spec detachedOutput).1 (("a1b2c3d").data) (by decide)⟩

/-! ## C6 -/

/-- C6: with abbreviation enabled, version strings of length at most 35 pass
through unchanged, longer ones come out with length exactly 35 ending in the
three-character ellipsis; hash abbreviation truncates exactly the strings of
length 40 to their first 7 characters (no ellipsis) and passes every other
length through unmodified. -/
theorem abbreviation_lengths (v h : Str) :
    (v.length ≤ 35 → get_abbreviated_version true v VERSION_MAX_LENGTH = v)
  ∧ (35 < v.length →
      (get_abbreviated_version true v VERSION_MAX_LENGTH).length = 35
      ∧ List.IsSuffix (("...").data) (get_abbreviated_version true v VERSION_MAX_LENGTH))
  ∧ (h.length = 40 →
      get_abbreviated_hash h HASH_MAX_LENGTH = h.take 7
      ∧ (get_abbreviated_hash h HASH_MAX_LENGTH).length = 7)
  ∧ (h.length ≠ 40 → get_abbreviated_hash h HASH_MAX_LENGTH = h) := by
  unfold get_abbreviated_version get_abbreviated_hash is_probably_a_hash
    VERSION_MAX_LENGTH HASH_MAX_LENGTH
  refine ⟨?_, ?_, ?_, ?_⟩
  · intro hle
    rw [if_neg (by simp), if_pos hle]
  · intro hgt
    rw [if_neg (by simp), if_neg (by omega)]
    constructor
    · rw [List.length_append, List.length_take]
      simp
      omega
    · exact List.suffix_append _ _
  · intro h40
    rw [if_neg (by simp [h40]), if_neg (by omega)]
    refine ⟨rfl, ?_⟩
    rw [List.length_take]
    omega
  · intro hne
    rw [if_pos (by simp [hne])]

/-- A 40-character hash-looking string. -/
def h40 : Str := ("0123456789abcdef0123456789abcdef01234567").data

/-- A 36-character version string. -/
def v36 : Str := ("release/123456789012345678901234567\x2f").data

theorem abbreviation_lengths_witness :
    (35 < v36.length ∧ (get_abbreviated_version true v36 VERSION_MAX_LENGTH).length = 35)
  ∧ (h40.length = 40 ∧ get_abbreviated_hash h40 HASH_MAX_LENGTH = h40.take 7) :=
  ⟨⟨by decide, ((abbreviation_lengths v36 h40).2.1 (by decide)).1⟩,
   ⟨by decide, ((abbreviation_lengths v36 h40).2.2.1 (by decide)).1⟩⟩

/-! ## C7 -/

/-- A fact on branch `master`, local-only, whose `local_hash` is a full
40-character hash. -/
def c7Output : CompareOutput :=
  { local_version := ("master").data, remote_version := [], tag := [],
    local_hash := h40, remote_hash := [], remote := [],
    ahead := 0, behind := 0, unstaged_changes := false, staged_changes := false,
    untracked_files := false, stashes := false }

def c7Entry : CompareOutputEntry :=
  CompareOutputEntry.make (("repo").data) c7Output none

/-- C7 counterexample: in phase 1 (abbreviation disabled) the local-version
cell already shows the 40-character hash truncated to 7 characters, not at
full length — `_get_abbreviated_hash` takes no phase flag. -/
theorem phase1_hash_truncation_counterexample :
    c7Entry.compare_output.local_hash.length = 40
  ∧ c7Entry.get_color_local_version false
      = h40.take 7 ++ (" (").data ++ ("master").data ++ (")").data
  ∧ c7Entry.get_color_local_version false
      ≠ c7Entry.get_local_foreground_color ++ c7Entry.compare_output.local_hash
          ++ (" (").data ++ c7Entry.compare_output.local_version ++ (")").data := by
  refine ⟨by decide, by decide, by decide⟩

/-- C7 amended: in phase 1 version strings are rendered at full length and
version abbreviation is enabled only after phase 1 exceeds the width budget
(or not at all when width-fitting is off), but 40-character hash strings are
truncated to 7 characters in every phase, phase 1 included. -/
theorem phase1_abbreviation_amended (v hs : Str) (e : List (Str × TableEntry))
    (measure : Rendered → Nat) (display_width : Nat) :
    (get_abbreviated_version false v VERSION_MAX_LENGTH = v)
  ∧ (hs.length = 40 → get_abbreviated_hash hs HASH_MAX_LENGTH = hs.take 7)
  ∧ (measure (renderPhase e false 0) ≤ display_width →
      renderTable measure display_width true e = renderPhase e false 0)
  ∧ (renderTable measure display_width false e = renderPhase e false 0) := by
  refine ⟨?_, ?_, ?_, ?_⟩
  · rw [get_abbreviated_version, if_pos rfl]
  · intro h40len
    exact ((abbreviation_lengths [] hs).2.2.1 h40len).1
  · intro hfit
    unfold renderTable
    rw [if_pos (Or.inr hfit)]
  · unfold renderTable
    rw [if_pos (Or.inl rfl)]

theorem phase1_abbreviation_amended_witness :
    h40.length = 40
  ∧ get_abbreviated_hash h40 HASH_MAX_LENGTH = h40.take 7
  ∧ renderTable (fun _ => 0) 0 true [] = renderPhase [] false 0 :=
  ⟨by decide,
   (phase1_abbreviation_amended [] h40 [] (fun _ => 0) 0).2.1 (by decide),
   (phase1_abbreviation_amended [] h40 [] (fun _ => 0) 0).2.2.1 (by decide)⟩

/-! ## C8 -/

/-- A manifest declaring path `a` with an inner dict that has no `version`
key. -/
def c8Manifest : List (Str × ManifestDict) := [((("a").data), ⟨none⟩)]

/-- C8 counterexample: a path declared in the manifest whose entry lacks a
`version` key is classified UNTRACKED, although a manifest entry exists for
it — `get_manifest_version` collapses "no entry" and "entry without version"
into `None`. -/
theorem repo_status_untracked_counterexample :
    (("a").data) ∈ c8Manifest.map Prod.fst
  ∧ (CompareOutputEntry.make (("a").data) sampleOutput
      (get_manifest_version c8Manifest (("a").data))).get_repo_status
      = RepoStatus.UNTRACKED := by
  refine ⟨by decide, by decide⟩

/-- C8 amended: a discovered path is UNTRACKED iff the manifest declares no
version for it — either no manifest entry exists for the path, or the entry
has no `version` key — and NOMINAL iff the manifest has an entry for the
path carrying a version. -/
theorem repo_status_amended (mf : List (Str × ManifestDict)) (path : Str)
    (o : CompareOutput) :
    ((CompareOutputEntry.make path o (get_manifest_version mf path)).get_repo_status
        = RepoStatus.UNTRACKED ↔ get_manifest_version mf path = none)
  ∧ (get_manifest_version mf path = none ↔
      (∀ d, mf.lookup path = some d → d.version = none))
  ∧ ((CompareOutputEntry.make path o (get_manifest_version mf path)).get_repo_status
        = RepoStatus.NOMINAL ↔
      (∃ d v, mf.lookup path = some d ∧ d.version = some v)) := by
  have hstat : ∀ mv, (CompareOutputEntry.make path o mv).get_repo_status
      = (if mv = none then RepoStatus.UNTRACKED else RepoStatus.NOMINAL) := by
    intro mv
    rfl
  refine ⟨?_, ?_, ?_⟩
  · rw [hstat]
    cases get_manifest_version mf path <;> simp
  · unfold get_manifest_version
    cases hl : mf.lookup path with
    | none => simp [hl]
    | some d =>
      cases hv : d.version <;> simp [hv]
  · rw [hstat]
    unfold get_manifest_version
    cases hl : mf.lookup path with
    | none => simp
    | some d =>
      cases hv : d.version <;> simp [hv]

theorem repo_status_amended_witness :
    (CompareOutputEntry.make (("a").data) sampleOutput
      (get_manifest_version c8Manifest (("a").data))).get_repo_status
      = RepoStatus.UNTRACKED :=
  (repo_status_amended c8Manifest (("a").data) sampleOutput).1.mpr (by decide)

/-! ## C9 -/

/-- C9: the entry-construction layer is not total — with no discovered facts
and a manifest entry for path `a` that has no `version` key, the
missing-entry pass of `generate_table_entries` evaluates
`manifest["version"]` and the `KeyError` escapes (modelled as `none`),
contradicting the specified "no exceptions under any input shape". -/
theorem generate_table_entries_keyerror :
    generate_table_entries [] c8Manifest false = none := by
  decide

/-! ## C4 -/

lemma fitColsAux_spec (width : Nat → Nat) (dw : Nat) :
    ∀ fuel cols, ICompareTableEntry.MAX_HIDE_COLUMNS ≤ fuel + cols →
      cols ≤ fitColsAux width dw fuel cols
      ∧ fitColsAux width dw fuel cols ≤ max cols ICompareTableEntry.MAX_HIDE_COLUMNS
      ∧ (width (fitColsAux width dw fuel cols) ≤ dw
          ∨ ICompareTableEntry.MAX_HIDE_COLUMNS ≤ fitColsAux width dw fuel cols)
      ∧ (∀ k, cols ≤ k → k < fitColsAux width dw fuel cols → dw < width k) := by
  intro fuel
  induction fuel with
  | zero =>
    intro cols hle
    simp only [fitColsAux]
    refine ⟨le_refl _, le_max_left _ _, Or.inr (by omega), ?_⟩
    intro k hk1 hk2
    omega
  | succ f ih =>
    intro cols hle
    simp only [fitColsAux]
    by_cases hc : width cols ≤ dw ∨ ICompareTableEntry.MAX_HIDE_COLUMNS ≤ cols
    · rw [if_pos hc]
      refine ⟨le_refl _, le_max_left _ _, hc, ?_⟩
      intro k hk1 hk2
      omega
    · rw [if_neg hc]
      push_neg at hc
      obtain ⟨hc1, hc2⟩ := hc
      have h2 := ih (cols + 1) (by omega)
      refine ⟨by omega, ?_, h2.2.2.1, ?_⟩
      · have h3 := h2.2.1
        omega
      · intro k hk1 hk2
        rcases eq_or_lt_of_le hk1 with heq | hlt
        · rw [← heq]
          exact hc1
        · exact h2.2.2.2 k (by omega) hk2

lemma fit_cols_to_hide_spec (width : Nat → Nat) (dw : Nat) :
    fit_cols_to_hide width dw ≤ 6
    ∧ (width (fit_cols_to_hide width dw) ≤ dw ∨ fit_cols_to_hide width dw = 6)
    ∧ (∀ k < fit_cols_to_hide width dw, dw < width k) := by
  have hmax : ICompareTableEntry.MAX_HIDE_COLUMNS = 6 := rfl
  have h := fitColsAux_spec width dw ICompareTableEntry.MAX_HIDE_COLUMNS 0 (by omega)
  unfold fit_cols_to_hide
  refine ⟨?_, ?_, fun k hk => h.2.2.2 k (by omega) hk⟩
  · have h1 := h.2.1
    omega
  · rcases h.2.2.1 with hh | hh
    · exact Or.inl hh
    · right
      have h1 := h.2.1
      omega

/-- C4: the column-hiding loop stops at the first hidden-column count that
fits the width budget or at all six hideable columns (each count below the
stopping point was too wide), the headers at `k` hidden columns are exactly
`HEADERS` minus the first `k` entries of `HEADER_HIDE_ORDER` (Remote
Version, Manifest, Ah/Bh, Local Version, Flags, Status) plus the dummy end
column, and the Path column is never hidden. -/
theorem column_hiding_order_and_stop (width : Nat → Nat) (display_width : Nat) :
    (fit_cols_to_hide width display_width ≤ 6
      ∧ (width (fit_cols_to_hide width display_width) ≤ display_width
          ∨ fit_cols_to_hide width display_width = 6)
      ∧ (∀ k < fit_cols_to_hide width display_width, display_width < width k))
  ∧ (∀ k < 7, ICompareTableEntry.get_headers k =
      (ICompareTableEntry.HEADERS.filter
        (fun h => !((ICompareTableEntry.HEADER_HIDE_ORDER.take k).contains h))) ++ [[]])
  ∧ (∀ k < 7, ICompareTableEntry.PATH_HEADER ∈ ICompareTableEntry.get_headers k) := by
  refine ⟨fit_cols_to_hide_spec width display_width, by decide, by decide⟩

theorem column_hiding_order_and_stop_witness :
    fit_cols_to_hide (fun _ => 1) 0 = 6
  ∧ (0:Nat) < 1
  ∧ ICompareTableEntry.PATH_HEADER ∈ ICompareTableEntry.get_headers 6 :=
  ⟨by decide,
   (column_hiding_order_and_stop (fun _ => 1) 0).1.2.2 0 (by decide),
   (column_hiding_order_and_stop (fun _ => 1) 0).2.2 6 (by decide)⟩

/-! ## C5 -/

lemma lookup_perm {l₁ l₂ : List (Str × TableEntry)} (p : l₁.Perm l₂)
    (nd : (l₁.map Prod.fst).Nodup) (k : Str) : l₁.lookup k = l₂.lookup k := by
  induction p with
  | nil => rfl
  | cons x t ih =>
    obtain ⟨kx, vx⟩ := x
    by_cases hk : k = kx
    · simp [List.lookup, hk]
    · have hk2 : (k == kx) = false := by simp [hk]
      simp only [List.lookup, hk2]
      exact ih (List.Nodup.of_cons nd)
  | swap x y t =>
    obtain ⟨kx, vx⟩ := x
    obtain ⟨ky, vy⟩ := y
    have hne : ky ≠ kx := by
      simp only [List.map_cons, List.nodup_cons, List.mem_cons] at nd
      intro he
      exact nd.1 (Or.inl he)
    have hxy : (ky == kx) = false := by simp [hne]
    have hyx : (kx == ky) = false := by simp [Ne.symm hne]
    by_cases hk1 : k = ky
    · subst hk1
      simp [List.lookup, hxy]
    · by_cases hk3 : k = kx
      · subst hk3
        simp [List.lookup, hyx]
      · have b1 : (k == ky) = false := by simp [hk1]
        have b2 : (k == kx) = false := by simp [hk3]
        simp [List.lookup, b1, b2]
  | trans p₁ p₂ ih₁ ih₂ =>
    rw [ih₁ nd, ih₂ ((p₁.map Prod.fst).nodup nd)]

lemma sortKeys_perm_eq {l₁ l₂ : List (Str × TableEntry)} (hp : l₁.Perm l₂) :
    sortKeys l₁ = sortKeys l₂ := by
  apply List.eq_of_perm_of_sorted
    ((List.perm_insertionSort _ _).trans
      ((hp.map Prod.fst).trans (List.perm_insertionSort _ _).symm))
    (List.sorted_insertionSort _ _) (List.sorted_insertionSort _ _)

lemma renderPhase_perm {l₁ l₂ : List (Str × TableEntry)} (hp : l₁.Perm l₂)
    (nd : (l₁.map Prod.fst).Nodup) (ab : Bool) (cols : Nat) :
    renderPhase l₁ ab cols = renderPhase l₂ ab cols := by
  have hl : ∀ k, l₁.lookup k = l₂.lookup k := lookup_perm hp nd
  unfold renderPhase
  rw [sortKeys_perm_eq hp]
  simp only [hl]

/-- C5: rendering is deterministic — permuting the entry map (same path-keyed
dict, different insertion order) leaves the rendered table unchanged, the
paths are laid out in ascending sorted order (a permutation of the entry
paths), and re-rendering the same entry map with the same width budget gives
an identical result. -/
theorem rendering_deterministic_and_sorted (measure : Rendered → Nat)
    (display_width : Nat) (should_hide_cols : Bool)
    (l₁ l₂ : List (Str × TableEntry)) (hp : l₁.Perm l₂)
    (nd : (l₁.map Prod.fst).Nodup) :
    renderTable measure display_width should_hide_cols l₁
      = renderTable measure display_width should_hide_cols l₂
  ∧ (sortKeys l₁).Sorted (fun a b => a ≤ b)
  ∧ (sortKeys l₁).Perm (l₁.map Prod.fst)
  ∧ renderTable measure display_width should_hide_cols l₁
      = renderTable measure display_width should_hide_cols l₁ := by
  have hph : ∀ ab cols, renderPhase l₁ ab cols = renderPhase l₂ ab cols :=
    renderPhase_perm hp nd
  refine ⟨?_, List.sorted_insertionSort _ _, List.perm_insertionSort _ _, rfl⟩
  unfold renderTable fit_cols_to_hide
  simp only [hph]

def c5EntryA : Str × TableEntry :=
  ((("a").data), TableEntry.missing (("a").data) (("v1").data))

def c5EntryB : Str × TableEntry :=
  ((("b").data), TableEntry.missing (("b").data) (("v2").data))

theorem rendering_deterministic_and_sorted_witness :
    [c5EntryA, c5EntryB].Perm [c5EntryB, c5EntryA]
  ∧ renderTable (fun _ => 0) 80 true [c5EntryA, c5EntryB]
      = renderTable (fun _ => 0) 80 true [c5EntryB, c5EntryA] :=
  ⟨List.Perm.swap c5EntryB c5EntryA [],
   (rendering_deterministic_and_sorted (fun _ => 0) 80 true
      [c5EntryA, c5EntryB] [c5EntryB, c5EntryA]
      (List.Perm.swap c5EntryB c5EntryA []) (by decide)).1⟩

/-! ## C10 -/

/-- What one step of the missing-entry pass contributes for one manifest
item: nothing when the path was discovered, otherwise the missing entry
built from the item's version (no entry possible when the version is
absent — that case aborts the pass). -/
def missFn (ks : List Str) (pd : Str × ManifestDict) : Option (Str × TableEntry) :=
  if pd.1 ∈ ks then none
  else pd.2.version.map (fun v => (pd.1, TableEntry.missing pd.1 v))

lemma missFn_eq_some {ks : List Str} {pd : Str × ManifestDict}
    {x : Str × TableEntry} :
    missFn ks pd = some x ↔
      pd.1 ∉ ks ∧ ∃ v, pd.2.version = some v
        ∧ x = (pd.1, TableEntry.missing pd.1 v) := by
  unfold missFn
  by_cases hk : pd.1 ∈ ks
  · simp [hk]
  · rw [if_neg hk]
    constructor
    · intro hm
      obtain ⟨v, hv, hxe⟩ := Option.map_eq_some'.mp hm
      exact ⟨hk, v, hv, hxe.symm⟩
    · rintro ⟨-, v, hv, hxe⟩
      rw [hv, hxe]
      rfl

lemma addMissing_some_eq (ks : List Str) :
    ∀ (mf : List (Str × ManifestDict)) (acc es : List (Str × TableEntry)),
      addMissing ks mf acc = some es →
      es = acc ++ mf.filterMap (missFn ks) := by
  intro mf
  induction mf with
  | nil =>
    intro acc es h
    simp only [addMissing] at h
    injection h with h
    rw [← h]
    simp
  | cons pd rest ih =>
    intro acc es h
    obtain ⟨p, d⟩ := pd
    simp only [addMissing] at h
    by_cases hk : p ∈ ks
    · rw [if_pos hk] at h
      rw [ih acc es h, List.filterMap_cons]
      have hf : missFn ks (p, d) = none := by
        unfold missFn
        rw [if_pos hk]
      rw [hf]
    · rw [if_neg hk] at h
      cases hv : d.version with
      | none =>
        rw [hv] at h
        cases h
      | some v =>
        rw [hv] at h
        rw [ih _ es h, List.filterMap_cons]
        have hf : missFn ks (p, d) = some (p, TableEntry.missing p v) := by
          unfold missFn
          rw [if_neg hk, hv]
          rfl
        rw [hf]
        simp

lemma missFn_keys_sublist (ks : List Str) (mf : List (Str × ManifestDict)) :
    ((mf.filterMap (missFn ks)).map Prod.fst).Sublist (mf.map Prod.fst) := by
  induction mf with
  | nil => simp
  | cons pd rest ih =>
    rw [List.filterMap_cons]
    cases hf : missFn ks pd with
    | none =>
      simp only [List.map_cons]
      exact ih.cons _
    | some x =>
      obtain ⟨hk, v, hv, hxeq⟩ := missFn_eq_some.mp hf
      subst hxeq
      simp only [List.map_cons]
      exact ih.cons₂ _

lemma missFn_keys_not_mem {ks : List Str} {mf : List (Str × ManifestDict)} :
    ∀ q ∈ (mf.filterMap (missFn ks)).map Prod.fst, q ∉ ks := by
  intro q hq
  rw [List.mem_map] at hq
  obtain ⟨x, hx, hq⟩ := hq
  rw [List.mem_filterMap] at hx
  obtain ⟨pd, hpd, hf⟩ := hx
  obtain ⟨hk, v, hv, hxeq⟩ := missFn_eq_some.mp hf
  rw [← hq, hxeq]
  exact hk

lemma trackedEntries_keys_sublist (co : List (Str × CompareOutput))
    (mf : List (Str × ManifestDict)) (so : Bool) :
    ((trackedEntries co mf so).map Prod.fst).Sublist (co.map Prod.fst) := by
  have hcomp : ((trackedEntries co mf so).map Prod.fst)
      = ((co.filter (fun pc =>
          !(so && !(CompareOutputEntry.make pc.1 pc.2
              (get_manifest_version mf pc.1)).is_significant))).map Prod.fst) := by
    unfold trackedEntries
    rw [List.map_map]
    rfl
  rw [hcomp]
  exact (List.filter_sublist _).map _

lemma trackedEntries_mem {co : List (Str × CompareOutput)}
    {mf : List (Str × ManifestDict)} {so : Bool} {x : Str × TableEntry}
    (hx : x ∈ trackedEntries co mf so) :
    ∃ pc, pc ∈ co ∧ x = (pc.1, TableEntry.tracked (CompareOutputEntry.make pc.1 pc.2
      (get_manifest_version mf pc.1))) := by
  unfold trackedEntries at hx
  rw [List.mem_map] at hx
  obtain ⟨pc, hpc, heq⟩ := hx
  exact ⟨pc, (List.mem_filter.mp hpc).1, heq.symm⟩

/-- C10: `generate_table_entries` yields at most one entry per path; a
missing entry appears for exactly the manifest paths that carry a version
and have no discovered fact; and a path with a discovered fact never
reappears as a missing entry, even when the significant-only filter dropped
its tracked entry — the missing-entry pass tests against the discovered-fact
paths, not the filtered entry map. -/
theorem generate_table_entries_unique_paths (co : List (Str × CompareOutput))
    (mf : List (Str × ManifestDict)) (so : Bool) (es : List (Str × TableEntry))
    (ndco : (co.map Prod.fst).Nodup) (ndmf : (mf.map Prod.fst).Nodup)
    (h : generate_table_entries co mf so = some es) :
    (es.map Prod.fst).Nodup
  ∧ (∀ p v, (p, TableEntry.missing p v) ∈ es ↔
      (∃ d, (p, d) ∈ mf ∧ d.version = some v ∧ p ∉ co.map Prod.fst))
  ∧ (∀ p e, (p, e) ∈ es → e.isMissing = true → p ∉ co.map Prod.fst) := by
  unfold generate_table_entries at h
  have hes := addMissing_some_eq (co.map Prod.fst) mf _ es h
  subst hes
  refine ⟨?_, ?_, ?_⟩
  · rw [List.map_append]
    apply List.Nodup.append
    · exact List.Nodup.sublist (trackedEntries_keys_sublist co mf so) ndco
    · exact List.Nodup.sublist (missFn_keys_sublist _ _) ndmf
    · intro a ha hb
      exact missFn_keys_not_mem a hb ((trackedEntries_keys_sublist co mf so).subset ha)
  · intro p v
    rw [List.mem_append]
    constructor
    · rintro (hx | hx)
      · obtain ⟨pc, _, heq⟩ := trackedEntries_mem hx
        exfalso
        simp at heq
      · rw [List.mem_filterMap] at hx
        obtain ⟨pd, hpd, hf⟩ := hx
        obtain ⟨hk, v2, hv, hxeq⟩ := missFn_eq_some.mp hf
        have hp1 : p = pd.1 := congrArg Prod.fst hxeq
        have hv2 : TableEntry.missing p v = TableEntry.missing pd.1 v2 :=
          congrArg Prod.snd hxeq
        have hveq : v = v2 := by
          injection hv2
        refine ⟨pd.2, ?_, ?_, ?_⟩
        · rw [hp1]
          exact hpd
        · rw [hveq]
          exact hv
        · rw [hp1]
          exact hk
    · rintro ⟨d, hd, hv, hp⟩
      right
      rw [List.mem_filterMap]
      refine ⟨(p, d), hd, ?_⟩
      rw [missFn_eq_some]
      exact ⟨hp, v, hv, rfl⟩
  · intro p e he hm
    rw [List.mem_append] at he
    rcases he with hx | hx
    · obtain ⟨pc, _, heq⟩ := trackedEntries_mem hx
      have he2 : e = TableEntry.tracked (CompareOutputEntry.make pc.1 pc.2
          (get_manifest_version mf pc.1)) := congrArg Prod.snd heq
      rw [he2] at hm
      cases hm
    · rw [List.mem_filterMap] at hx
      obtain ⟨pd, hpd, hf⟩ := hx
      obtain ⟨hk, v2, hv, hxeq⟩ := missFn_eq_some.mp hf
      have hp1 : p = pd.1 := congrArg Prod.fst hxeq
      rw [hp1]
      exact hk

def c10Co : List (Str × CompareOutput) := [((("a").data), sampleOutput)]

def c10Mf : List (Str × ManifestDict) := [((("a").data), ⟨some (("master").data)⟩)]

theorem generate_table_entries_unique_paths_witness :
    generate_table_entries c10Co c10Mf true = some []
  ∧ (([] : List (Str × TableEntry)).map Prod.fst).Nodup :=
  ⟨by decide,
   (generate_table_entries_unique_paths c10Co c10Mf true []
      (by decide) (by decide) (by decide)).1⟩
